import Mathlib

/-!
Verification of the `cmp` crate: the `compare_structs` struct-comparison engine
(`src/lib.rs`).

The crate exposes one entry point with two operating modes:

* Selected-fields mode (`compare_structs!(expected, actual, field, ...)`), lines
  120-138 and 188-202 of `src/lib.rs`: for each field in the caller-supplied list,
  in order, if `expected.field != actual.field` a line
  `"<field>: <expected:#?> != <actual:#?>\n"` is appended to `diffs`; finally
  `assert!(diffs.is_empty(), "{diffs}")` aborts with `diffs` as the message iff any
  line was produced. Field access, the field type's `!=`, and its debug rendering
  are resolved at the call site, so the engine is modelled generically: a struct is
  a map from field names to values of a type `V`, `!=` is a parameter
  `bne : V → V → Bool`, and the debug rendering is a parameter `rep : V → String`.

* All-fields mode (`compare_structs!(expected, actual)`, serde feature), lines
  140-187: both values are serialized with `serde_json::to_value`; if the two
  serialized values are unequal, each is converted to a JSON object (panicking if
  it is not an object), and the maps are compared key by key: first a pass over
  `expected_map` in its order (value mismatch or missing-from-actual lines), then a
  pass over `actual_map` (missing-from-expected lines for keys absent from
  `expected_map`); finally the same `assert!`. Serialized values are modelled by
  `JValue`; the pretty debug rendering of a `serde_json::Value` is an external
  collaborator capability and is a parameter `repJ : JValue → String`.
-/

namespace Cmp

/-- Serialized values as produced by the `serde_json::to_value` collaborator:
null, booleans, numbers, strings, arrays, and objects (ordered key/value
mappings; `serde_json`'s map keeps keys unique, but the model does not need to
assume so). Numbers are modelled by `Int`. -/
inductive JValue where
  | null
  | bool (b : Bool)
  | num (n : Int)
  | str (s : String)
  | arr (elems : List JValue)
  | obj (fields : List (String × JValue))

mutual

/-- Equality of `serde_json::Value`s (its derived `PartialEq`): scalars compare
natively, arrays element-wise in order, and objects as maps — same size and
every key of the left map present in the right map with an equal value. -/
def jeq : JValue → JValue → Bool
  | .null, .null => true
  | .bool b1, .bool b2 => b1 == b2
  | .num n1, .num n2 => n1 == n2
  | .str s1, .str s2 => s1 == s2
  | .arr xs, .arr ys => jeqList xs ys
  | .obj xs, .obj ys => xs.length == ys.length && jeqObj xs ys
  | _, _ => false
termination_by a b => sizeOf a + sizeOf b

/-- Element-wise equality of JSON arrays. -/
def jeqList : List JValue → List JValue → Bool
  | [], [] => true
  | x :: xs, y :: ys => jeq x y && jeqList xs ys
  | _ :: _, [] => false
  | [], _ :: _ => false
termination_by xs ys => sizeOf xs + sizeOf ys

/-- Every entry of the first map is present, with an equal value, in the second. -/
def jeqObj : List (String × JValue) → List (String × JValue) → Bool
  | [], _ => true
  | (k, v) :: rest, ys => jeqGet k v ys && jeqObj rest ys
termination_by xs ys => sizeOf xs + sizeOf ys

/-- The second map contains key `k` (first occurrence) with a value equal to `v`. -/
def jeqGet : String → JValue → List (String × JValue) → Bool
  | _, _, [] => false
  | k, v, (k2, v2) :: rest => if k2 = k then jeq v v2 else jeqGet k v rest
termination_by _ v ys => sizeOf v + sizeOf ys

end

/-- `serde_json::Value`'s `!=` (the default `PartialEq::ne`). -/
def jne (a b : JValue) : Bool := !(jeq a b)

/-- `Value::as_object`: `some` of the key/value mapping when the value is a JSON
object, `none` otherwise (scalars, arrays). -/
def asObject : JValue → Option (List (String × JValue))
  | .obj fields => some fields
  | _ => none

/-- `Map::get`: value at the first occurrence of key `k`, if any. -/
def mapGet (k : String) : List (String × JValue) → Option JValue
  | [] => none
  | (k2, v) :: rest => if k2 = k then some v else mapGet k rest

/-- `Map::contains_key`. -/
def containsKey (k : String) (m : List (String × JValue)) : Bool :=
  (mapGet k m).isSome

/-! ### Selected-fields mode (lines 120-138 and 188-202 of `src/lib.rs`)

A struct is modelled as a total map `String → V` from field names to field
values, since the expanded code accesses `$expected.$field` directly (a field
that does not exist, or whose type has no `!=`, is a compile-time error and never
reaches the engine). `bne` is the field type's `!=` and `rep` its `{:#?}` debug
rendering. -/

/-- One line of output of `format!` at line 127 / 192 of `src/lib.rs`:
`"<field>: <expected:#?> != <actual:#?>\n"`. -/
def fieldLine {V : Type} (rep : V → String) (expected actual : String → V)
    (field : String) : String :=
  field ++ ": " ++ rep (expected field) ++ " != " ++ rep (actual field) ++ "\n"

/-- The `diffs` accumulation loop of the selected-fields rule: for each field in
the caller-supplied list, in order, append a `fieldLine` when
`expected.field != actual.field`. -/
def selectedDiffs {V : Type} (bne : V → V → Bool) (rep : V → String)
    (expected actual : String → V) (fields : List String) : String :=
  fields.foldl
    (fun diffs field =>
      if bne (expected field) (actual field) then
        diffs ++ fieldLine rep expected actual field
      else
        diffs)
    ""

/-- The whole expanded selected-fields rule: build `diffs`, then
`assert!(diffs.is_empty(), "{diffs}")` — `Except.ok ()` when the assertion
passes silently, `Except.error diffs` for the panic carrying `diffs` as its
message. -/
def compareSelected {V : Type} (bne : V → V → Bool) (rep : V → String)
    (expected actual : String → V) (fields : List String) : Except String Unit :=
  let diffs := selectedDiffs bne rep expected actual fields
  if diffs = "" then Except.ok () else Except.error diffs

/-- The selected-fields rule of the `compare_structs` macro binds the field list
with a one-or-more repetition (`+`). An invocation whose field list is empty
matches no rule of the macro and is rejected at compile time, modelled by
`none`; a non-empty list expands to `compareSelected`. -/
def compare_structs_selected {V : Type} (bne : V → V → Bool) (rep : V → String)
    (expected actual : String → V) (fields : List String) :
    Option (Except String Unit) :=
  match fields with
  | [] => none
  | _ :: _ => some (compareSelected bne rep expected actual fields)

/-! ### All-fields mode (serde feature, lines 140-187 of `src/lib.rs`) -/

/-- `format!` at line 161: `"<key>: <expected:#?> != <actual:#?>\n"`. -/
def mismatchLine (repJ : JValue → String) (key : String)
    (expectedFieldVal actualFieldVal : JValue) : String :=
  key ++ ": " ++ repJ expectedFieldVal ++ " != " ++ repJ actualFieldVal ++ "\n"

/-- `format!` at line 168: `"<key>: field missing from actual: <expected:#?>\n"`. -/
def missingFromActualLine (repJ : JValue → String) (key : String)
    (expectedFieldVal : JValue) : String :=
  key ++ ": field missing from actual: " ++ repJ expectedFieldVal ++ "\n"

/-- `format!` at line 178: `"<key>: field missing from expected: <actual:#?>\n"`. -/
def missingFromExpectedLine (repJ : JValue → String) (key : String)
    (actualFieldVal : JValue) : String :=
  key ++ ": field missing from expected: " ++ repJ actualFieldVal ++ "\n"

/-- The two `for` loops of lines 157-183: one pass over `expected_map` in its
order (per key: nothing, a `mismatchLine`, or a `missingFromActualLine`), then
one pass over `actual_map` in its order (a `missingFromExpectedLine` for each
key that `expected_map` lacks), all appended to the running `diffs` string. -/
def allFieldsDiffs (repJ : JValue → String)
    (expected_map actual_map : List (String × JValue)) : String :=
  let diffs := expected_map.foldl
    (fun diffs kv =>
      match mapGet kv.1 actual_map with
      | some actual_field_val =>
        if jne kv.2 actual_field_val then
          diffs ++ mismatchLine repJ kv.1 kv.2 actual_field_val
        else
          diffs
      | none => diffs ++ missingFromActualLine repJ kv.1 kv.2)
    ""
  actual_map.foldl
    (fun diffs kv =>
      if !containsKey kv.1 expected_map then
        diffs ++ missingFromExpectedLine repJ kv.1 kv.2
      else
        diffs)
    diffs

/-- Outcome of an all-fields invocation: it either passes silently, or panics —
via `Option::expect` when a serialized value is not a JSON object (carrying the
`expect` message), or via the final `assert!` (carrying the `diffs` report). -/
inductive CmpError where
  | notObject (msg : String)
  | diffFound (diffs : String)

/-- The expanded all-fields rule (lines 143-186), applied to the two already
serialized values: if the serialized values are unequal, convert each to an
object — `expect`-panicking on `expected` first, then on `actual` — build
`diffs` with the two loops, and `assert!(diffs.is_empty(), "{diffs}")`. When the
serialized values are equal nothing at all runs. -/
def compare_structs_all (repJ : JValue → String)
    (expected_val actual_val : JValue) : Except CmpError Unit :=
  if jne expected_val actual_val then
    match asObject expected_val with
    | none => Except.error (CmpError.notObject "Expected value is not an object")
    | some expected_map =>
      match asObject actual_val with
      | none => Except.error (CmpError.notObject "Actual value is not an object")
      | some actual_map =>
        let diffs := allFieldsDiffs repJ expected_map actual_map
        if diffs = "" then Except.ok () else Except.error (CmpError.diffFound diffs)
  else
    Except.ok ()

/-! ### State-passing view of a call

The expanded bodies only read their inputs (`$expected.$field` by shared
reference, `&$expected` for serialization); no statement assigns to `expected`
or `actual`. The state-passing translation therefore threads the pair of input
values through the call unchanged, next to the produced result. -/

/-- The two structs visible to a selected-fields invocation. -/
structure SelectedCallState (V : Type) where
  expected : String → V
  actual : String → V

/-- A selected-fields call as a state transformer: the translation of the
expanded body returns the (untouched) inputs together with the outcome. -/
def compareSelectedCall {V : Type} (bne : V → V → Bool) (rep : V → String)
    (s : SelectedCallState V) (fields : List String) :
    SelectedCallState V × Except String Unit :=
  (s, compareSelected bne rep s.expected s.actual fields)

/-- The two serialized values visible to an all-fields invocation. -/
structure AllFieldsCallState where
  expected : JValue
  actual : JValue

/-- An all-fields call as a state transformer. -/
def compareAllCall (repJ : JValue → String) (s : AllFieldsCallState) :
    AllFieldsCallState × Except CmpError Unit :=
  (s, compare_structs_all repJ s.expected s.actual)

/-! ### Enumeration-order renderings

Recursive restatements of the accumulation loops: the report is the
concatenation, in enumeration order, of one (possibly empty) contribution per
enumerated field. These are the reference points for the order property. -/

/-- Per-field contributions of the selected-fields loop, concatenated in the
caller-supplied list order. -/
def diffLines {V : Type} (bne : V → V → Bool) (rep : V → String)
    (expected actual : String → V) : List String → String
  | [] => ""
  | field :: rest =>
    (if bne (expected field) (actual field) then
      fieldLine rep expected actual field
    else "") ++ diffLines bne rep expected actual rest

/-- Per-key contributions of the first all-fields loop, concatenated in
`expected_map`'s order: for each key of `expected_map`, either nothing, a
`mismatchLine`, or a `missingFromActualLine`. -/
def expectedKeyLines (repJ : JValue → String)
    (actual_map : List (String × JValue)) : List (String × JValue) → String
  | [] => ""
  | (key, v) :: rest =>
    (match mapGet key actual_map with
     | some actual_field_val =>
       if jne v actual_field_val then mismatchLine repJ key v actual_field_val
       else ""
     | none => missingFromActualLine repJ key v) ++
      expectedKeyLines repJ actual_map rest

/-- Per-key contributions of the second all-fields loop, concatenated in
`actual_map`'s order: a `missingFromExpectedLine` for each key absent from
`expected_map`. -/
def actualOnlyLines (repJ : JValue → String)
    (expected_map : List (String × JValue)) : List (String × JValue) → String
  | [] => ""
  | (key, v) :: rest =>
    (if !containsKey key expected_map then missingFromExpectedLine repJ key v
     else "") ++ actualOnlyLines repJ expected_map rest

/-! ### String helper lemmas -/

theorem append_eq_empty {a b : String} : a ++ b = "" ↔ a = "" ∧ b = "" := by
  constructor
  · intro h
    have h2 := congrArg String.data h
    simp only [String.data_append] at h2
    rcases List.append_eq_nil.mp h2 with ⟨ha, hb⟩
    exact ⟨String.ext ha, String.ext hb⟩
  · rintro ⟨rfl, rfl⟩
    rfl

theorem newline_terminated_ne_empty {a : String} : a ++ "\n" ≠ "" := by
  intro h
  have h2 := (append_eq_empty.mp h).2
  simp at h2

theorem fieldLine_ne_empty {V : Type} (rep : V → String)
    (expected actual : String → V) (field : String) :
    fieldLine rep expected actual field ≠ "" :=
  newline_terminated_ne_empty

theorem mismatchLine_ne_empty (repJ : JValue → String) (key : String)
    (ev av : JValue) : mismatchLine repJ key ev av ≠ "" :=
  newline_terminated_ne_empty

theorem missingFromActualLine_ne_empty (repJ : JValue → String) (key : String)
    (ev : JValue) : missingFromActualLine repJ key ev ≠ "" :=
  newline_terminated_ne_empty

theorem missingFromExpectedLine_ne_empty (repJ : JValue → String) (key : String)
    (av : JValue) : missingFromExpectedLine repJ key av ≠ "" :=
  newline_terminated_ne_empty

/-- Lifting a `pre ++ line ++ post` decomposition over a prepended chunk. -/
theorem append_decomp (c : String) {s pre line post : String}
    (h : s = pre ++ line ++ post) : c ++ s = (c ++ pre) ++ line ++ post := by
  rw [h]
  simp [String.append_assoc]

/-! ### The loops compute the enumeration-order renderings -/

theorem selectedDiffs_foldl {V : Type} (bne : V → V → Bool) (rep : V → String)
    (expected actual : String → V) (fields : List String) (acc : String) :
    fields.foldl
      (fun diffs field =>
        if bne (expected field) (actual field) then
          diffs ++ fieldLine rep expected actual field
        else
          diffs)
      acc = acc ++ diffLines bne rep expected actual fields := by
  induction fields generalizing acc with
  | nil => simp [diffLines]
  | cons field rest ih =>
    by_cases h : bne (expected field) (actual field) <;>
      simp [diffLines, h, ih, String.append_assoc]

theorem selectedDiffs_eq_diffLines {V : Type} (bne : V → V → Bool)
    (rep : V → String) (expected actual : String → V) (fields : List String) :
    selectedDiffs bne rep expected actual fields =
      diffLines bne rep expected actual fields := by
  rw [selectedDiffs, selectedDiffs_foldl]
  simp

theorem expectedKeyLines_foldl (repJ : JValue → String)
    (actual_map expected_map : List (String × JValue)) (acc : String) :
    expected_map.foldl
      (fun diffs kv =>
        match mapGet kv.1 actual_map with
        | some actual_field_val =>
          if jne kv.2 actual_field_val then
            diffs ++ mismatchLine repJ kv.1 kv.2 actual_field_val
          else
            diffs
        | none => diffs ++ missingFromActualLine repJ kv.1 kv.2)
      acc = acc ++ expectedKeyLines repJ actual_map expected_map := by
  induction expected_map generalizing acc with
  | nil => simp [expectedKeyLines]
  | cons kv rest ih =>
    obtain ⟨key, v⟩ := kv
    cases hm : mapGet key actual_map with
    | none => simp [expectedKeyLines, hm, ih, String.append_assoc]
    | some actual_field_val =>
      by_cases h : jne v actual_field_val <;>
        simp [expectedKeyLines, hm, h, ih, String.append_assoc]

theorem actualOnlyLines_foldl (repJ : JValue → String)
    (expected_map actual_map : List (String × JValue)) (acc : String) :
    actual_map.foldl
      (fun diffs kv =>
        if !containsKey kv.1 expected_map then
          diffs ++ missingFromExpectedLine repJ kv.1 kv.2
        else
          diffs)
      acc = acc ++ actualOnlyLines repJ expected_map actual_map := by
  induction actual_map generalizing acc with
  | nil => simp [actualOnlyLines]
  | cons kv rest ih =>
    obtain ⟨key, v⟩ := kv
    rw [List.foldl_cons, ih]
    by_cases h : containsKey key expected_map <;>
      simp [actualOnlyLines, h, String.append_assoc]

theorem allFieldsDiffs_eq (repJ : JValue → String)
    (expected_map actual_map : List (String × JValue)) :
    allFieldsDiffs repJ expected_map actual_map =
      expectedKeyLines repJ actual_map expected_map ++
        actualOnlyLines repJ expected_map actual_map := by
  rw [allFieldsDiffs]
  rw [actualOnlyLines_foldl, expectedKeyLines_foldl]
  simp

/-! ### Facts about the selected-fields report -/

theorem diffLines_of_all_eq {V : Type} (bne : V → V → Bool) (rep : V → String)
    (expected actual : String → V) (fields : List String)
    (h : ∀ field ∈ fields, bne (expected field) (actual field) = false) :
    diffLines bne rep expected actual fields = "" := by
  induction fields with
  | nil => rfl
  | cons field rest ih =>
    have h1 := h field (List.mem_cons_self field rest)
    simp [diffLines, h1, ih (fun g hg => h g (List.mem_cons_of_mem field hg))]

theorem diffLines_append {V : Type} (bne : V → V → Bool) (rep : V → String)
    (expected actual : String → V) (l1 l2 : List String) :
    diffLines bne rep expected actual (l1 ++ l2) =
      diffLines bne rep expected actual l1 ++
        diffLines bne rep expected actual l2 := by
  induction l1 with
  | nil => simp [diffLines]
  | cons f fs ih => simp [diffLines, ih, String.append_assoc]

theorem diffLines_single {V : Type} (bne : V → V → Bool) (rep : V → String)
    (expected actual : String → V) (f : String) (fields : List String)
    (hcount : fields.count f = 1)
    (hdiff : bne (expected f) (actual f) = true)
    (hrest : ∀ g ∈ fields, g ≠ f → bne (expected g) (actual g) = false) :
    diffLines bne rep expected actual fields =
      fieldLine rep expected actual f := by
  induction fields with
  | nil => simp at hcount
  | cons g gs ih =>
    by_cases hg : g = f
    · subst hg
      have hzero : gs.count g = 0 := by
        rw [List.count_cons_self] at hcount
        omega
      have hall : ∀ x ∈ gs, bne (expected x) (actual x) = false := by
        intro x hx
        rcases eq_or_ne x g with rfl | hne2
        · exact absurd hx (List.count_eq_zero.mp hzero)
        · exact hrest x (List.mem_cons_of_mem g hx) hne2
      have hrec : diffLines bne rep expected actual gs = "" :=
        diffLines_of_all_eq bne rep expected actual gs hall
      simp [diffLines, hdiff, hrec]
    · have h1 : bne (expected g) (actual g) = false :=
        hrest g (List.mem_cons_self g gs) hg
      have hcount2 : gs.count f = 1 := by
        rw [List.count_cons_of_ne (Ne.symm hg)] at hcount
        exact hcount
      simp [diffLines, h1,
        ih hcount2 (fun x hx hxf => hrest x (List.mem_cons_of_mem g hx) hxf)]

/-! ### C1, C2, C6, C7 -/

/-- C1: in selected-fields mode, for every non-empty field list, when
`expected` and `actual` agree on every listed field (the field type's `!=`
returns `false` for each), the report `diffs` is the empty string and the
final `assert!` passes silently — the call is a no-op, no panic. -/
theorem selected_allEqual_clean {V : Type} (bne : V → V → Bool)
    (rep : V → String) (expected actual : String → V) (fields : List String)
    (hnonempty : fields ≠ [])
    (heq : ∀ field ∈ fields, bne (expected field) (actual field) = false) :
    selectedDiffs bne rep expected actual fields = "" ∧
      compareSelected bne rep expected actual fields = Except.ok () := by
  have hdiffs : selectedDiffs bne rep expected actual fields = "" := by
    rw [selectedDiffs_eq_diffLines]
    exact diffLines_of_all_eq bne rep expected actual fields heq
  refine ⟨hdiffs, ?_⟩
  rw [compareSelected]
  simp [hdiffs]

/-- Witness for C1: two structs with equal fields, compared on `a` and `b`. -/
theorem selected_allEqual_clean_witness :
    selectedDiffs (fun x y : Int => x != y) toString
        (fun _ => (1 : Int)) (fun _ => (1 : Int)) ["a", "b"] = "" ∧
      compareSelected (fun x y : Int => x != y) toString
        (fun _ => (1 : Int)) (fun _ => (1 : Int)) ["a", "b"] = Except.ok () :=
  selected_allEqual_clean _ _ _ _ _ (by decide) (by decide)

/-- C2: in selected-fields mode, when the values differ at exactly one listed
field `f` (listed once) and agree on every other listed field, the report is
exactly the one line `"<f>: <expectedRepr> != <actualRepr>\n"` for `f`, and
the `assert!` aborts with exactly that report as its message. -/
theorem selected_single_mismatch {V : Type} (bne : V → V → Bool)
    (rep : V → String) (expected actual : String → V) (fields : List String)
    (f : String) (hcount : fields.count f = 1)
    (hdiff : bne (expected f) (actual f) = true)
    (hrest : ∀ g ∈ fields, g ≠ f → bne (expected g) (actual g) = false) :
    selectedDiffs bne rep expected actual fields =
        fieldLine rep expected actual f ∧
      compareSelected bne rep expected actual fields =
        Except.error (fieldLine rep expected actual f) := by
  have hdiffs : selectedDiffs bne rep expected actual fields =
      fieldLine rep expected actual f := by
    rw [selectedDiffs_eq_diffLines]
    exact diffLines_single bne rep expected actual f fields hcount hdiff hrest
  refine ⟨hdiffs, ?_⟩
  rw [compareSelected]
  simp [hdiffs, fieldLine_ne_empty]

/-- Witness for C2: structs differing exactly at field `b` of `a`, `b`, `c`. -/
theorem selected_single_mismatch_witness :
    selectedDiffs (fun x y : Int => x != y) toString
        (fun field => if field = "b" then (2 : Int) else 1) (fun _ => (1 : Int))
        ["a", "b", "c"] =
      fieldLine toString
        (fun field => if field = "b" then (2 : Int) else 1) (fun _ => (1 : Int))
        "b" ∧
      compareSelected (fun x y : Int => x != y) toString
        (fun field => if field = "b" then (2 : Int) else 1) (fun _ => (1 : Int))
        ["a", "b", "c"] =
      Except.error (fieldLine toString
        (fun field => if field = "b" then (2 : Int) else 1) (fun _ => (1 : Int))
        "b") :=
  selected_single_mismatch _ _ _ _ _ "b" (by decide) (by decide) (by decide)

/-- C6: a field name occurring several times in the caller-supplied list is
checked once per occurrence, in list position order: when its values are
unequal, each occurrence contributes the same mismatch line at its position in
the report (duplicates are not deduplicated). -/
theorem selected_duplicate_occurrences {V : Type} (bne : V → V → Bool)
    (rep : V → String) (expected actual : String → V) (f : String)
    (l1 l2 l3 : List String)
    (hdiff : bne (expected f) (actual f) = true) :
    selectedDiffs bne rep expected actual (l1 ++ f :: l2 ++ f :: l3) =
      selectedDiffs bne rep expected actual l1 ++
        (fieldLine rep expected actual f ++
          (selectedDiffs bne rep expected actual l2 ++
            (fieldLine rep expected actual f ++
              selectedDiffs bne rep expected actual l3))) := by
  simp only [selectedDiffs_eq_diffLines]
  simp [diffLines_append, diffLines, hdiff, String.append_assoc]

/-- Witness for C6: the field `x`, listed twice around `y`, with unequal
values; the theorem pins both of its identical lines to their positions. -/
theorem selected_duplicate_occurrences_witness :
    selectedDiffs (fun x y : Int => x != y) toString
        (fun _ => (1 : Int)) (fun _ => (2 : Int)) ([] ++ "x" :: ["y"] ++ "x" :: []) =
      selectedDiffs (fun x y : Int => x != y) toString
          (fun _ => (1 : Int)) (fun _ => (2 : Int)) [] ++
        (fieldLine toString (fun _ => (1 : Int)) (fun _ => (2 : Int)) "x" ++
          (selectedDiffs (fun x y : Int => x != y) toString
              (fun _ => (1 : Int)) (fun _ => (2 : Int)) ["y"] ++
            (fieldLine toString (fun _ => (1 : Int)) (fun _ => (2 : Int)) "x" ++
              selectedDiffs (fun x y : Int => x != y) toString
                (fun _ => (1 : Int)) (fun _ => (2 : Int)) []))) :=
  selected_duplicate_occurrences _ _ _ _ "x" [] ["y"] [] (by decide)

/-- C7 counterexample: in selected-fields mode the field list is bound by a
one-or-more repetition, so an invocation with an empty field list matches no
rule of the macro (modelled `none`): it is rejected before running rather than
completing as a degenerate always-pass comparison with a clean result. -/
theorem selected_empty_list_counterexample :
    compare_structs_selected (fun x y : Int => x != y) toString
        (fun _ => (1 : Int)) (fun _ => (1 : Int)) [] = none ∧
      compare_structs_selected (fun x y : Int => x != y) toString
        (fun _ => (1 : Int)) (fun _ => (1 : Int)) [] ≠
        some (Except.ok ()) := by
  refine ⟨rfl, ?_⟩
  intro h
  exact Option.noConfusion h

/-- C7 amended: a selected-fields invocation with an empty field list is
rejected before any comparison runs — no rule of the macro accepts it (a
compile-time error); it does not produce a clean always-pass result. -/
theorem selected_empty_list_rejected {V : Type} (bne : V → V → Bool)
    (rep : V → String) (expected actual : String → V) :
    compare_structs_selected bne rep expected actual [] = none := rfl

/-! ### Facts about the all-fields report -/

theorem actualOnlyLines_contains (repJ : JValue → String)
    (expected_map actual_map : List (String × JValue)) (k : String) (v : JValue)
    (hmem : (k, v) ∈ actual_map)
    (habs : containsKey k expected_map = false) :
    ∃ pre post, actualOnlyLines repJ expected_map actual_map =
      pre ++ missingFromExpectedLine repJ k v ++ post := by
  induction actual_map with
  | nil => cases hmem
  | cons kv rest ih =>
    rcases List.mem_cons.mp hmem with heq | hmem2
    · subst heq
      refine ⟨"", actualOnlyLines repJ expected_map rest, ?_⟩
      simp [actualOnlyLines, habs]
    · obtain ⟨key2, v2⟩ := kv
      obtain ⟨pre, post, hp⟩ := ih hmem2
      simp only [actualOnlyLines]
      exact ⟨_, post, append_decomp _ hp⟩

theorem expectedKeyLines_missing (repJ : JValue → String)
    (actual_map expected_map : List (String × JValue)) (k : String) (v : JValue)
    (hmem : (k, v) ∈ expected_map)
    (habs : mapGet k actual_map = none) :
    ∃ pre post, expectedKeyLines repJ actual_map expected_map =
      pre ++ missingFromActualLine repJ k v ++ post := by
  induction expected_map with
  | nil => cases hmem
  | cons kv rest ih =>
    rcases List.mem_cons.mp hmem with heq | hmem2
    · subst heq
      refine ⟨"", expectedKeyLines repJ actual_map rest, ?_⟩
      simp [expectedKeyLines, habs]
    · obtain ⟨key2, v2⟩ := kv
      obtain ⟨pre, post, hp⟩ := ih hmem2
      simp only [expectedKeyLines]
      exact ⟨_, post, append_decomp _ hp⟩

/-! ### C3, C4, C5, C8, C9, C10 -/

/-- C3: in all-fields mode, every entry of `actual_map` whose key is absent
from `expected_map` contributes its
`"<key>: field missing from expected: <actualRepr>\n"` line to the report, and
every entry of `expected_map` whose key is absent from `actual_map` contributes
its `"<key>: field missing from actual: <expectedRepr>\n"` line — regardless of
whatever other mismatch lines exist. -/
theorem allFields_missing_key_lines (repJ : JValue → String)
    (expected_map actual_map : List (String × JValue)) (k : String)
    (v : JValue) :
    ((k, v) ∈ actual_map → containsKey k expected_map = false →
      ∃ pre post, allFieldsDiffs repJ expected_map actual_map =
        pre ++ missingFromExpectedLine repJ k v ++ post) ∧
    ((k, v) ∈ expected_map → mapGet k actual_map = none →
      ∃ pre post, allFieldsDiffs repJ expected_map actual_map =
        pre ++ missingFromActualLine repJ k v ++ post) := by
  constructor
  · intro hmem habs
    obtain ⟨pre, post, hp⟩ :=
      actualOnlyLines_contains repJ expected_map actual_map k v hmem habs
    rw [allFieldsDiffs_eq]
    exact ⟨_, post, append_decomp _ hp⟩
  · intro hmem habs
    obtain ⟨pre, post, hp⟩ :=
      expectedKeyLines_missing repJ actual_map expected_map k v hmem habs
    rw [allFieldsDiffs_eq, hp]
    exact ⟨pre, post ++ actualOnlyLines repJ expected_map actual_map, by
      simp [String.append_assoc]⟩

/-- Witness for C3: `expected` has only key `a`, `actual` has only key `b`;
the report carries the missing-from-expected line for `b` and the
missing-from-actual line for `a`. -/
theorem allFields_missing_key_lines_witness :
    (∃ pre post,
      allFieldsDiffs (fun _ => "v") [("a", JValue.num 1)] [("b", JValue.num 2)] =
        pre ++ missingFromExpectedLine (fun _ => "v") "b" (JValue.num 2) ++ post) ∧
    (∃ pre post,
      allFieldsDiffs (fun _ => "v") [("a", JValue.num 1)] [("b", JValue.num 2)] =
        pre ++ missingFromActualLine (fun _ => "v") "a" (JValue.num 1) ++ post) :=
  ⟨(allFields_missing_key_lines (fun _ => "v") [("a", JValue.num 1)]
      [("b", JValue.num 2)] "b" (JValue.num 2)).1
      (by simp) (by simp [containsKey, mapGet]),
   (allFields_missing_key_lines (fun _ => "v") [("a", JValue.num 1)]
      [("b", JValue.num 2)] "a" (JValue.num 1)).2
      (by simp) (by simp [mapGet])⟩

/-- C4 counterexample: both inputs serialize to the same scalar `1` — neither
can be converted to a keyed mapping — yet the all-fields call returns cleanly
instead of failing with a serialization error, because the object conversion is
only reached when the serialized values differ. -/
theorem allFields_nonObject_counterexample :
    asObject (JValue.num 1) = none ∧
      compare_structs_all (fun _ => "") (JValue.num 1) (JValue.num 1) =
        Except.ok () := by
  refine ⟨rfl, ?_⟩
  rw [compare_structs_all]
  simp [jne, jeq]

/-- C4 amended: in all-fields mode, when the two serialized values are unequal
and either cannot be converted to a keyed object, the call fails with the
`expect` panic naming the offending value (`expected` is converted, and so
panics, first) and never returns a clean result. -/
theorem allFields_nonObject_fails (repJ : JValue → String)
    (expected_val actual_val : JValue)
    (hne : jne expected_val actual_val = true)
    (h : asObject expected_val = none ∨ asObject actual_val = none) :
    (∃ msg, compare_structs_all repJ expected_val actual_val =
        Except.error (CmpError.notObject msg)) ∧
      compare_structs_all repJ expected_val actual_val ≠ Except.ok () := by
  cases he : asObject expected_val with
  | none =>
    refine ⟨⟨"Expected value is not an object", ?_⟩, ?_⟩ <;>
      simp [compare_structs_all, hne, he]
  | some expected_map =>
    have ha : asObject actual_val = none := by
      rcases h with h1 | h2
      · rw [he] at h1
        cases h1
      · exact h2
    refine ⟨⟨"Actual value is not an object", ?_⟩, ?_⟩ <;>
      simp [compare_structs_all, hne, he, ha]

/-- Witness for C4 (amended): the scalars `1` and `2` differ, neither is an
object, and the call fails with the `expect` panic. -/
theorem allFields_nonObject_fails_witness :
    (∃ msg, compare_structs_all (fun _ => "") (JValue.num 1) (JValue.num 2) =
        Except.error (CmpError.notObject msg)) ∧
      compare_structs_all (fun _ => "") (JValue.num 1) (JValue.num 2) ≠
        Except.ok () :=
  allFields_nonObject_fails (fun _ => "") (JValue.num 1) (JValue.num 2)
    (by simp [jne, jeq]) (Or.inl rfl)

/-- C5: the report's line order is the enumeration order, never a sorting or a
regrouping: in selected-fields mode the report is the concatenation, in the
caller-supplied list order, of one contribution per listed field; in all-fields
mode it is the concatenation of one contribution per key of `expected_map` in
its mapping order (mismatch and missing-from-actual lines interleaved there, not
grouped by kind), followed by the missing-from-expected lines of the keys only
in `actual_map`, in `actual_map`'s order, appended afterward. -/
theorem report_order {V : Type} (bne : V → V → Bool) (rep : V → String)
    (expected actual : String → V) (fields : List String)
    (repJ : JValue → String)
    (expected_map actual_map : List (String × JValue)) :
    selectedDiffs bne rep expected actual fields =
        diffLines bne rep expected actual fields ∧
      allFieldsDiffs repJ expected_map actual_map =
        expectedKeyLines repJ actual_map expected_map ++
          actualOnlyLines repJ expected_map actual_map :=
  ⟨selectedDiffs_eq_diffLines bne rep expected actual fields,
    allFieldsDiffs_eq repJ expected_map actual_map⟩

/-- C8: determinism across runs — the engine is a pure function of the
comparison request in both modes, so running the same request twice yields the
same outcome: byte-identical report strings and the same clean flag. -/
theorem engine_deterministic {V : Type} (bne : V → V → Bool) (rep : V → String)
    (expected actual : String → V) (fields : List String)
    (repJ : JValue → String) (expected_val actual_val : JValue) :
    compareSelected bne rep expected actual fields =
        compareSelected bne rep expected actual fields ∧
      compare_structs_all repJ expected_val actual_val =
        compare_structs_all repJ expected_val actual_val :=
  ⟨rfl, rfl⟩

/-- C9: frame property — in either mode a call leaves both input values
unchanged: the state threaded through the call comes back exactly as passed in,
and the only other product is the outcome (report or pass). -/
theorem engine_no_mutation {V : Type} (bne : V → V → Bool) (rep : V → String)
    (s : SelectedCallState V) (fields : List String)
    (repJ : JValue → String) (t : AllFieldsCallState) :
    (compareSelectedCall bne rep s fields).1 = s ∧
      (compareAllCall repJ t).1 = t :=
  ⟨rfl, rfl⟩

/-- C10: in all-fields mode, whenever the two serialized values compare equal
the call returns cleanly at once, without requiring either value to be a keyed
object — the object conversion sits inside the branch taken only when the
top-level serialized values are unequal, so two values serializing to the same
scalar or sequence pass silently with no error. -/
theorem allFields_equal_values_clean (repJ : JValue → String)
    (expected_val actual_val : JValue)
    (heq : jeq expected_val actual_val = true) :
    compare_structs_all repJ expected_val actual_val = Except.ok () := by
  rw [compare_structs_all]
  simp [jne, heq]

/-- Witness for C10: two equal scalars — not objects — pass silently. -/
theorem allFields_equal_values_clean_witness :
    compare_structs_all (fun _ => "") (JValue.num 5) (JValue.num 5) =
      Except.ok () :=
  allFields_equal_values_clean (fun _ => "") (JValue.num 5) (JValue.num 5)
    (by simp [jeq])

end Cmp
